import Mathlib

/-!
Verification of the WebDoc agent core (risk classifier, approval rendezvous,
event bus, network-capture accumulator, session deduplication, exploration
scheduler) against its natural-language specification.

The TypeScript sources are embedded shallowly: pure functions become Lean
functions, stateful classes become explicit state-passing transition
functions, JavaScript regular-expression tests over string literals become
decidable scans over character lists, and fallible operations (URL parsing,
response-body reads) return Option or Except values.
-/

namespace WebDoc

/-! ## String primitives

JavaScript string operations used by the sources, modelled over character
lists so that every definition evaluates by kernel reduction. -/

/-- Lower-cased character list of a string (models `s.toLowerCase()` on the
ASCII alphabet used by the sources). -/
def lowerOf (s : String) : List Char :=
  s.data.map Char.toLower

/-- Upper-cased character list of a string (models `s.toUpperCase()`). -/
def upperOf (s : String) : List Char :=
  s.data.map Char.toUpper

/-- Containment of `pat` as a contiguous substring of `hay` (models an
unanchored regular-expression literal such as `/checkout/` or
`String.prototype.includes`). -/
def containsSeq (hay pat : List Char) : Bool :=
  match hay with
  | [] => pat.isEmpty
  | _ :: t => pat.isPrefixOf hay || containsSeq t pat

/-- True when some pattern of the list occurs in `hay` (models a regex
alternation of plain literals, e.g. `/checkout|payment|…/`). -/
def containsAny (hay : List Char) (pats : List (List Char)) : Bool :=
  pats.any (fun p => containsSeq hay p)

/-- Trailing part of the regex `\/users\/[^/]+\/delete` after at least one
non-slash character was consumed: either `/delete` starts here, or the head
is another non-slash character and we continue. -/
def afterUsersSeg : List Char → Bool
  | [] => false
  | c :: t => "/delete".data.isPrefixOf (c :: t) || (c != '/' && afterUsersSeg t)

/-- Matches `[^/]+\/delete`: one non-slash character, then `afterUsersSeg`. -/
def usersSegStart : List Char → Bool
  | [] => false
  | c :: t => c != '/' && afterUsersSeg t

/-- Unanchored scan for the regex `\/users\/[^/]+\/delete`. -/
def usersDeleteScan : List Char → Bool
  | [] => false
  | c :: t =>
    ("/users/".data.isPrefixOf (c :: t) && usersSegStart ((c :: t).drop 7))
      || usersDeleteScan t

/-! ## Risk classifier (src/agent/Risk.ts, assessRisk) -/

/-- Risk tiers exported by Risk.ts. -/
inductive RiskLevel
  | low
  | medium
  | high
deriving DecidableEq, Repr

/-- Financial keywords of the second rule of assessRisk. -/
def financialKeywords : List (List Char) :=
  ["checkout", "payment", "order", "purchase", "billing", "subscription"].map String.data

/-- Authentication-path keywords of the fifth rule of assessRisk. -/
def authKeywords : List (List Char) :=
  ["/auth/", "/login", "/logout", "/register"].map String.data

/-- Account-deletion rule of assessRisk: the regex
`\/users\/[^/]+\/delete|\/account\/close|\/account\/delete`. -/
def accountDeletionMatch (lowerUrl : List Char) : Bool :=
  usersDeleteScan lowerUrl
    || containsSeq lowerUrl "/account/close".data
    || containsSeq lowerUrl "/account/delete".data

/-- Shallow embedding of `assessRisk(method, url)` from src/agent/Risk.ts. -/
def assessRisk (method url : String) : RiskLevel :=
  let upperMethod := upperOf method
  let lowerUrl := lowerOf url
  if upperMethod = "DELETE".data then .high
  else if containsAny lowerUrl financialKeywords then .high
  else if accountDeletionMatch lowerUrl then .high
  else if upperMethod = "PUT".data || upperMethod = "PATCH".data then .medium
  else if containsAny lowerUrl authKeywords then .medium
  else .low

/-! ## Agent core data model (src/agent/Events.ts) -/

/-- Execution modes of the agent (Events.ts, ExecutionMode). -/
inductive ExecutionMode
  | EXECUTE
  | OBSERVE_ONLY
  | DOCUMENT_ONLY
deriving DecidableEq, Repr

/-- Decisions an external caller can supply to resolveApproval. -/
inductive ApprovalDecision
  | yes
  | no
  | doc
deriving DecidableEq, Repr

/-- Decisions for resolveActionDecision (Events.ts, ActionDecision). -/
inductive ActionDecision
  | yes
  | no
deriving DecidableEq, Repr

/-- The fragment of the AgentEvent tagged union that the verified claims
touch (Events.ts).  Payload fields follow the source. -/
inductive AgentEvent
  | info (message : String)
  | network (method url : String) (status timestamp : Nat)
  | approvalRequired (action method endpoint : String) (risk : RiskLevel)
  | actionSuggestion (action : String) (reason : Option String)
  | modeChange (mode : ExecutionMode)
deriving DecidableEq, Repr

/-- Recogniser for approval_required events. -/
def AgentEvent.isApproval : AgentEvent → Bool
  | .approvalRequired _ _ _ _ => true
  | _ => false

/-! ## handleNetworkCall (src/agent/Agent.ts, lines 105-136)

Awaiting requestApproval suspends until an external resolveApproval supplies
a decision; that externally supplied decision is passed in as `supplied`.
The function returns the list of events it emits (in emission order) paired
with the value the promise resolves to. -/

/-- Shallow embedding of Agent.handleNetworkCall.  Emits a network event,
then: high risk always requests approval (emitting approval_required and
returning the supplied decision); medium risk requests approval only in
EXECUTE mode; otherwise resolves to null (none). -/
def handleNetworkCall (mode : ExecutionMode) (supplied : ApprovalDecision)
    (method url : String) (status timestamp : Nat) :
    List AgentEvent × Option ApprovalDecision :=
  let risk := assessRisk method url
  let netEv := AgentEvent.network method url status timestamp
  if risk = .high then
    ([netEv, .approvalRequired (method ++ " " ++ url) method url risk], some supplied)
  else if risk = .medium ∧ mode = .EXECUTE then
    ([netEv, .approvalRequired (method ++ " " ++ url) method url risk], some supplied)
  else
    ([netEv], none)

/-! ## Approval rendezvous (src/agent/Agent.ts, lines 36-56)

The class keeps a single optional resolver slot.  We model promises by
natural-number identities: requestApproval parks the identity of its fresh
promise in the slot (overwriting whatever was there); resolveApproval, when
the slot is occupied, resolves that one promise with the supplied decision
(recorded in `resolved`) and clears the slot, and otherwise does nothing. -/

structure ApprovalSlot where
  pending : Option Nat
  resolved : List (Nat × ApprovalDecision)
deriving DecidableEq, Repr

/-- Agent.requestApproval: a fresh promise `p` is created and its resolver
overwrites the single slot. -/
def requestApprovalStep (s : ApprovalSlot) (p : Nat) : ApprovalSlot :=
  { s with pending := some p }

/-- Agent.resolveApproval: if a resolver is parked, call it with the
decision and clear the slot; otherwise do nothing. -/
def resolveApprovalStep (s : ApprovalSlot) (d : ApprovalDecision) : ApprovalSlot :=
  match s.pending with
  | some p => { pending := none, resolved := s.resolved ++ [(p, d)] }
  | none => s

/-- Operations an external caller can perform on the rendezvous. -/
inductive AgentOp
  | request (p : Nat)
  | resolveOp (d : ApprovalDecision)
deriving DecidableEq, Repr

/-- One rendezvous operation. -/
def stepOp (s : ApprovalSlot) : AgentOp → ApprovalSlot
  | .request p => requestApprovalStep s p
  | .resolveOp d => resolveApprovalStep s d

/-- A sequence of rendezvous operations. -/
def runOps (s : ApprovalSlot) (ops : List AgentOp) : ApprovalSlot :=
  ops.foldl stepOp s

/-- An operation list never mentioning promise `p` as a request. -/
def avoidsRequest (p : Nat) (ops : List AgentOp) : Prop :=
  ∀ q, AgentOp.request q ∈ ops → q ≠ p

/-! ## Event bus (src/agent/Agent.ts, lines 24-34)

The listener store is a mutable array field.  onEvent pushes onto the
current array in place; offEvent rebinds the field to a freshly filtered
array; emit runs Array.prototype.forEach on the array object the field held
when emit started, with the iteration length fixed at entry.  During a
dispatch the iterated array object and the field can therefore diverge:
a push lands on the field's current array (which is the iterated object
exactly until the first offEvent), while a filter never touches the
iterated object.  Listeners are identified by naturals; a listener's
behaviour is the list of bus operations it performs when invoked. -/

inductive BusOp
  | add (l : Nat)
  | remove (l : Nat)
deriving DecidableEq, Repr

/-- The state of the bus while one emit is dispatching: the array object
forEach iterates, the current value of the listeners field, and whether the
two are still the same object. -/
structure BusState where
  iterArr : List Nat
  field : List Nat
  aliased : Bool
deriving DecidableEq, Repr

/-- Effect of one listener-initiated bus operation during a dispatch.
Agent.onEvent pushes in place (visible through the alias while it holds);
Agent.offEvent rebinds the field to a fresh filtered array, breaking the
alias and leaving the iterated object untouched. -/
def applyBusOp (s : BusState) : BusOp → BusState
  | .add l =>
    { iterArr := if s.aliased then s.iterArr ++ [l] else s.iterArr
      field := s.field ++ [l]
      aliased := s.aliased }
  | .remove l =>
    { iterArr := s.iterArr
      field := s.field.filter (fun x => x ≠ l)
      aliased := false }

/-- forEach body: visit the indices in order; at each index read the
current element of the iterated array object and run that listener's
operations. -/
def emitLoop (behavior : Nat → List BusOp) :
    List Nat → List Nat × BusState → List Nat × BusState
  | [], acc => acc
  | k :: ks, (inv, s) =>
    match s.iterArr.get? k with
    | some l => emitLoop behavior ks (inv ++ [l], (behavior l).foldl applyBusOp s)
    | none => emitLoop behavior ks (inv, s)

/-- Agent.emit over listener list `listeners`: forEach fixes the index
range at entry (the array's length when emit is called) and dispatches
synchronously.  Returns the invoked listeners in invocation order and the
listeners field as it stands when emit returns. -/
def emit (behavior : Nat → List BusOp) (listeners : List Nat) :
    List Nat × List Nat :=
  let r := emitLoop behavior (List.range listeners.length)
    ([], ⟨listeners, listeners, true⟩)
  (r.1, r.2.field)

/-! ## URL model

The sources call the platform's WHATWG URL constructor, which is not part
of this repository.  Modelled from the spec: parsing a URL yields its
hostname (and pathname), and fails on malformed input ("malformed URLs" in
section 7); the same-site policy compares hostnames and "the registrable
base domain (last two labels)".  The model covers absolute http(s) URLs:
scheme, then host (lowercased, stopping at port, path, query or fragment),
then pathname (defaulting to a single slash). -/

/-- Strip an `http://` or `https://` scheme, or fail. -/
def dropScheme (l : List Char) : Option (List Char) :=
  if "http://".data.isPrefixOf l then some (l.drop 7)
  else if "https://".data.isPrefixOf l then some (l.drop 8)
  else none

/-- Host-and-port segment: everything before the first `/`, `?` or `#`. -/
def hostPortOf (rest : List Char) : List Char :=
  rest.takeWhile (fun c => c != '/' && c != '?' && c != '#')

/-- Modelled from the spec: the platform URL parser on absolute http(s)
URLs, returning the lowercased hostname and the pathname, or none when
parsing fails (mirrors `new URL(s)` throwing). -/
def parseUrlHostPath (s : String) : Option (List Char × List Char) :=
  match dropScheme s.data with
  | none => none
  | some rest =>
    let hp := hostPortOf rest
    let host := (hp.takeWhile (fun c => c != ':')).map Char.toLower
    if host.isEmpty then none
    else
      let path := (rest.drop hp.length).takeWhile (fun c => c != '?' && c != '#')
      some (host, if path.isEmpty then "/".data else path)

/-- Hostname of a URL, or none when parsing fails. -/
def parseUrlHost (s : String) : Option (List Char) :=
  (parseUrlHostPath s).map Prod.fst

/-- Split a character list at a separator (models `host.split(".")`). -/
def splitOnSep (sep : Char) : List Char → List (List Char)
  | [] => [[]]
  | c :: t =>
    let r := splitOnSep sep t
    if c = sep then [] :: r
    else
      match r with
      | h :: t2 => (c :: h) :: t2
      | [] => [[c]]

/-- Join character lists with a separator (models `parts.join(".")`). -/
def joinSep (sep : Char) : List (List Char) → List Char
  | [] => []
  | [p] => p
  | p :: t => p ++ sep :: joinSep sep t

/-! ## Network recorder (src/browser/networkRecorder.ts) -/

/-- RequestInfo record stored on a request event. -/
structure RequestInfo where
  method : String
  url : String
  headers : List (String × String)
  postData : Option String
  resourceType : String
  timestamp : Nat
deriving DecidableEq, Repr

/-- CapturedCall record appended on a passing response event. -/
structure CapturedCall where
  method : String
  url : String
  status : Nat
  requestHeaders : List (String × String)
  responseHeaders : List (String × String)
  requestBody : Option String
  responseBody : Option String
  timestamp : Nat
deriving DecidableEq, Repr

/-- Mutable state of a NetworkRecorder instance. -/
structure RecState where
  requests : List (Nat × RequestInfo)
  captureActive : Bool
  captureBaseDomain : Option (List Char)
  includeThirdParty : Bool
  capturedCalls : List CapturedCall
deriving DecidableEq, Repr

/-- NetworkRecorder.getBaseDomain: hostname of the URL, reduced to its last
two labels when it has more than two; none models the URL constructor
throwing on malformed input. -/
def getBaseDomain (url : String) : Option (List Char) :=
  (parseUrlHost url).map fun host =>
    let parts := (splitOnSep '.' host).filter (fun p => !p.isEmpty)
    if parts.length ≤ 2 then host
    else joinSep '.' (parts.drop (parts.length - 2))

/-- NetworkRecorder.isSameSite: equal host, or host ends in a dot followed
by the base domain. -/
def isSameSite (host baseDomain : List Char) : Bool :=
  host = baseDomain || ('.' :: baseDomain).isSuffixOf host

/-- NetworkRecorder.startCapture via BrowserController.startCapture
(includeThirdParty defaults to false at the single call site): activates
capture, clears the in-session list and fixes the base domain.  The error
case models getBaseDomain's URL constructor throwing. -/
def startCapture (st : RecState) (baseUrl : String) (includeThirdParty : Bool) :
    Except Unit RecState :=
  match getBaseDomain baseUrl with
  | none => .error ()
  | some b =>
    .ok { st with
          captureActive := true
          capturedCalls := []
          includeThirdParty := includeThirdParty
          captureBaseDomain := some b }

/-- NetworkRecorder.shouldCapture.  some b: returns b; none: the unguarded
`new URL(info.url)` inside the same-site check throws. -/
def shouldCapture (st : RecState) (info : RequestInfo) : Option Bool :=
  if info.resourceType ≠ "xhr" ∧ info.resourceType ≠ "fetch" then some false
  else
    match st.includeThirdParty, st.captureBaseDomain with
    | false, some base =>
      match parseUrlHost info.url with
      | none => none
      | some host => some (isSameSite host base)
    | _, _ => some true

/-- Whitespace-trim over characters (models `String.prototype.trim`). -/
def trimChars (l : List Char) : List Char :=
  ((l.dropWhile Char.isWhitespace).reverse.dropWhile Char.isWhitespace).reverse

/-- NetworkRecorder.truncate: undefined and empty strings give undefined;
otherwise trim, and cap at 20000 characters with an ellipsis marker (the
marker characters are the source's literal bytes). -/
def truncate (value : Option String) : Option String :=
  match value with
  | none => none
  | some v =>
    if v = "" then none
    else
      let trimmed := trimChars v.data
      if trimmed.length ≤ 20000 then some (String.mk trimmed)
      else some (String.mk (trimmed.take 20000 ++ "â€¦".data))

/-- Lookup of a header value by exact key (models indexing the headers
record; Playwright lowercases header names). -/
def headerLookup (headers : List (String × String)) (k : String) : Option String :=
  (headers.find? (fun h => h.1 = k)).map Prod.snd

/-- NetworkRecorder.safeResponseBody.  `bodyRead` is the outcome of
`response.text()` (error = the promise rejected).  Non-JSON, non-plain-text
content types give undefined before the body is read; a failed read is
caught and gives undefined. -/
def safeResponseBody (responseHeaders : List (String × String))
    (bodyRead : Except Unit String) : Option String :=
  let contentType := (headerLookup responseHeaders "content-type").getD ""
  if !(containsSeq contentType.data "application/json".data)
      && !(containsSeq contentType.data "text/plain".data) then none
  else
    match bodyRead with
    | .error _ => none
    | .ok text => truncate (some text)

/-- Request listener (start, lines 45-54): store the RequestInfo under the
request identity. -/
def onRequest (st : RecState) (reqId : Nat) (info : RequestInfo) : RecState :=
  { st with requests := (reqId, info) :: st.requests.filter (fun r => r.1 ≠ reqId) }

/-- Lookup in the requests map. -/
def lookupReq (requests : List (Nat × RequestInfo)) (reqId : Nat) :
    Option RequestInfo :=
  (requests.find? (fun r => r.1 = reqId)).map Prod.snd

/-- Response listener (start, lines 57-90), after the agent risk gate ran:
stop if capture is inactive or no request record matches; stop (without
appending) if shouldCapture says no; propagate shouldCapture's exception;
otherwise build the CapturedCall and append it unconditionally.  The
`method` fallback chain `info?.method || request.method() || "GET"` is kept
with `fallbackMethod` standing for `request.method()`. -/
def onResponse (st : RecState) (reqId : Nat) (fallbackMethod respUrl : String)
    (status : Nat) (respHeaders : List (String × String))
    (bodyRead : Except Unit String) (now : Nat) : Except Unit RecState :=
  match lookupReq st.requests reqId with
  | none => .ok st
  | some info =>
    if !st.captureActive then .ok st
    else
      match shouldCapture st info with
      | none => .error ()
      | some false => .ok st
      | some true =>
        let m := if info.method = "" then
            (if fallbackMethod = "" then "GET" else fallbackMethod)
          else info.method
        let call : CapturedCall :=
          { method := m
            url := respUrl
            status := status
            requestHeaders := info.headers
            responseHeaders := respHeaders
            requestBody := truncate info.postData
            responseBody := safeResponseBody respHeaders bodyRead
            timestamp := now }
        .ok { st with capturedCalls := st.capturedCalls ++ [call] }

/-! ## Session-level deduplication (src/index.tsx, lines 388-404) -/

/-- getApiKey: `METHOD hostname+pathname`, falling back to the raw URL when
parsing fails. -/
def getApiKey (c : CapturedCall) : String :=
  match parseUrlHostPath c.url with
  | some (h, p) => c.method ++ " " ++ String.mk h ++ String.mk p
  | none => c.method ++ " " ++ c.url

/-- onCapturedCall: add the call to the session only when its key is new;
the key set and the session list grow together. -/
def onCapturedCall (s : List String × List CapturedCall) (c : CapturedCall) :
    List String × List CapturedCall :=
  let k := getApiKey c
  if k ∈ s.1 then s else (s.1 ++ [k], s.2 ++ [c])

/-- A whole capture session: every passing call, in capture order, fed to
the shared capture listener starting from the empty accumulator. -/
def runSession (cs : List CapturedCall) : List String × List CapturedCall :=
  cs.foldl onCapturedCall ([], [])

/-- First-occurrence filter: keeps each call whose key was not seen before,
threading the set of seen keys.  Used to state what the session retains. -/
def firstOccFilter (seen : List String) : List CapturedCall → List CapturedCall
  | [] => []
  | c :: t =>
    if getApiKey c ∈ seen then firstOccFilter seen t
    else c :: firstOccFilter (seen ++ [getApiKey c]) t

/-! ## Exploration scheduler (src/index.tsx, lines 413-431 and 524-653) -/

/-- Navigation candidate (label, optional href, element type). -/
structure Candidate where
  label : String
  href : Option String
  ctype : String
deriving DecidableEq, Repr

/-- Literal alternatives of the unsafe-label pattern (the `sign\s*out`
branch is scanned separately). -/
def dangerWords : List String :=
  ["logout", "delete", "remove", "unsubscribe", "checkout",
   "payment", "order", "purchase", "buy"]

/-- Tail of the `sign\s*out` branch after `sign`: any run of whitespace,
then `out`. -/
def afterSignSeg : List Char → Bool
  | [] => false
  | c :: t => "out".data.isPrefixOf (c :: t) || (c.isWhitespace && afterSignSeg t)

/-- Unanchored scan for `sign\s*out`. -/
def signOutScan : List Char → Bool
  | [] => false
  | c :: t =>
    ("sign".data.isPrefixOf (c :: t) && afterSignSeg ((c :: t).drop 4))
      || signOutScan t

/-- isUnsafeLabel (index.tsx, lines 413-417): case-insensitive match of the
pattern `logout|sign\s*out|delete|remove|unsubscribe|checkout|payment|order|purchase|buy`. -/
def isUnsafeLabel (label : String) : Bool :=
  let l := label.data.map Char.toLower
  dangerWords.any (fun w => containsSeq l w.data) || signOutScan l

/-- isRiskyNavigation (index.tsx, lines 418-431): unsafe label, or an href
whose host differs from the CLI base host and is not a subdomain of it; a
URL parse failure is caught and counts as risky. -/
def isRiskyNavigation (cliUrl : String) (c : Candidate) : Bool :=
  if isUnsafeLabel c.label then true
  else
    match c.href with
    | none => false
    | some h =>
      match parseUrlHost h, parseUrlHost cliUrl with
      | some targetHost, some baseHost =>
        targetHost ≠ baseHost && !(('.' :: baseHost).isSuffixOf targetHost)
      | _, _ => true

/-- External outcomes the visit loop awaits: the human decision for a risky
candidate and whether the navigation attempt succeeds. -/
structure ExploreOracles where
  actionDecision : Candidate → ActionDecision
  navOk : Candidate → Bool

/-- Loop state of phase 2: the visited href set, the visited-page counter
`explored`, the labels of pages actually visited, and a count of navigation
attempts (successful or not). -/
structure ExploreState where
  visited : List String
  explored : Nat
  visitedPages : List String
  navAttempts : Nat
deriving DecidableEq, Repr

/-- Initial phase-2 state. -/
def exploreInit : ExploreState :=
  { visited := [], explored := 0, visitedPages := [], navAttempts := 0 }

/-- Phase 2 visit loop (index.tsx, lines 537-653) over the ordered
candidates: break when the budget of 8 visited pages is reached; skip
unsafe labels unconditionally; skip plan-skipped candidates unless
independently risky; skip already-visited hrefs; risky candidates need a
yes decision; then attempt navigation — on failure the candidate is skipped
with nothing recorded, on success the href is marked visited and the
counter and page list advance. -/
def exploreLoop (cliUrl : String) (skipLabels : List (List Char))
    (oracles : ExploreOracles) : ExploreState → List Candidate → ExploreState
  | st, [] => st
  | st, c :: rest =>
    if st.explored ≥ 8 then st
    else if isUnsafeLabel c.label then exploreLoop cliUrl skipLabels oracles st rest
    else if (skipLabels.contains (c.label.data.map Char.toLower)
        && !(isRiskyNavigation cliUrl c)) then
      exploreLoop cliUrl skipLabels oracles st rest
    else if (match c.href with
        | some h => st.visited.contains h
        | none => false) then
      exploreLoop cliUrl skipLabels oracles st rest
    else if (isRiskyNavigation cliUrl c && oracles.actionDecision c ≠ .yes) then
      exploreLoop cliUrl skipLabels oracles st rest
    else
      let st1 := { st with navAttempts := st.navAttempts + 1 }
      if oracles.navOk c then
        let st2 :=
          match c.href with
          | some h => { st1 with visited := st1.visited ++ [h] }
          | none => st1
        exploreLoop cliUrl skipLabels oracles
          { st2 with
            explored := st2.explored + 1
            visitedPages := st2.visitedPages ++ [c.label] } rest
      else
        exploreLoop cliUrl skipLabels oracles st1 rest

/-! ## Claim theorems -/

/-- C2: assessRisk is a pure, deterministic, total function whose rules are
checked in a fixed priority order with first match winning: DELETE
(case-insensitive) is high; otherwise a financial-keyword URL is high;
otherwise an account-deletion path is high; otherwise PUT or PATCH is
medium; otherwise an auth path is medium; otherwise low.  In particular
DELETE on any URL is high, PUT/PATCH on a non-keyword URL is medium,
GET /products is low, and two calls on the same input agree. -/
theorem assessRisk_rule_table :
    (∀ m u, upperOf m = "DELETE".data → assessRisk m u = .high) ∧
    (∀ u, assessRisk "DELETE" u = .high) ∧
    (∀ m u, upperOf m ≠ "DELETE".data →
      containsAny (lowerOf u) financialKeywords = true → assessRisk m u = .high) ∧
    (∀ m u, upperOf m ≠ "DELETE".data →
      containsAny (lowerOf u) financialKeywords = false →
      accountDeletionMatch (lowerOf u) = true → assessRisk m u = .high) ∧
    (∀ m u, upperOf m ≠ "DELETE".data →
      containsAny (lowerOf u) financialKeywords = false →
      accountDeletionMatch (lowerOf u) = false →
      (upperOf m = "PUT".data ∨ upperOf m = "PATCH".data) →
      assessRisk m u = .medium) ∧
    (∀ m u, upperOf m ≠ "DELETE".data →
      containsAny (lowerOf u) financialKeywords = false →
      accountDeletionMatch (lowerOf u) = false →
      upperOf m ≠ "PUT".data → upperOf m ≠ "PATCH".data →
      containsAny (lowerOf u) authKeywords = true → assessRisk m u = .medium) ∧
    (∀ m u, upperOf m ≠ "DELETE".data →
      containsAny (lowerOf u) financialKeywords = false →
      accountDeletionMatch (lowerOf u) = false →
      upperOf m ≠ "PUT".data → upperOf m ≠ "PATCH".data →
      containsAny (lowerOf u) authKeywords = false → assessRisk m u = .low) ∧
    (∀ u, containsAny (lowerOf u) financialKeywords = false →
      accountDeletionMatch (lowerOf u) = false →
      assessRisk "PUT" u = .medium ∧ assessRisk "PATCH" u = .medium) ∧
    (assessRisk "GET" "/products" = .low) ∧
    (∀ m u, assessRisk m u = assessRisk m u) := by
  have r1 : ∀ m u, upperOf m = "DELETE".data → assessRisk m u = .high := by
    intro m u h1
    simp [assessRisk, h1]
  have r5 : ∀ m u, upperOf m ≠ "DELETE".data →
      containsAny (lowerOf u) financialKeywords = false →
      accountDeletionMatch (lowerOf u) = false →
      (upperOf m = "PUT".data ∨ upperOf m = "PATCH".data) →
      assessRisk m u = .medium := by
    intro m u h1 h2 h3 h4
    rcases h4 with h4 | h4 <;> simp [assessRisk, h1, h2, h3, h4]
  refine ⟨r1, fun u => r1 "DELETE" u (by decide), ?_, ?_, r5, ?_, ?_,
    fun u h2 h3 => ⟨r5 "PUT" u (by decide) h2 h3 (Or.inl (by decide)),
      r5 "PATCH" u (by decide) h2 h3 (Or.inr (by decide))⟩,
    by decide, fun _ _ => rfl⟩
  · intro m u h1 h2
    simp [assessRisk, h1, h2]
  · intro m u h1 h2 h3
    simp [assessRisk, h1, h2, h3]
  · intro m u h1 h2 h3 h4 h5 h6
    simp [assessRisk, h1, h2, h3, h4, h5, h6]
  · intro m u h1 h2 h3 h4 h5 h6
    simp [assessRisk, h1, h2, h3, h4, h5, h6]

/-- Witness for C2 at concrete inputs: the case-insensitive DELETE rule
fires on method `delete`, and PUT on a keyword-free URL is medium. -/
theorem assessRisk_rule_table_witness :
    (upperOf "delete" = "DELETE".data ∧ assessRisk "delete" "https://x.com/a" = .high) ∧
    (containsAny (lowerOf "https://x.com/api/profile") financialKeywords = false ∧
      accountDeletionMatch (lowerOf "https://x.com/api/profile") = false ∧
      assessRisk "PUT" "https://x.com/api/profile" = .medium) :=
  ⟨⟨by decide, assessRisk_rule_table.1 "delete" "https://x.com/a" (by decide)⟩,
   ⟨by decide, by decide,
    (assessRisk_rule_table.2.2.2.2.2.2.2.1 "https://x.com/api/profile"
      (by decide) (by decide)).1⟩⟩

/-- C1: handleNetworkCall always emits the network event; when the
classified risk is high it requests approval and returns the supplied
decision in every mode (OBSERVE_ONLY included); when the risk is medium it
requests approval exactly in EXECUTE mode; in every other case (medium risk
outside EXECUTE, and all low-risk calls) it returns null and requests no
approval.  The two spec scenarios are included at the end. -/
theorem handleNetworkCall_gating :
    ∀ (mode : ExecutionMode) (d : ApprovalDecision) (m u : String) (s t : Nat),
      (AgentEvent.network m u s t ∈ (handleNetworkCall mode d m u s t).1) ∧
      (assessRisk m u = .high →
        (handleNetworkCall mode d m u s t).2 = some d ∧
        AgentEvent.approvalRequired (m ++ " " ++ u) m u .high
          ∈ (handleNetworkCall mode d m u s t).1) ∧
      (assessRisk m u = .medium → mode = .EXECUTE →
        (handleNetworkCall mode d m u s t).2 = some d ∧
        AgentEvent.approvalRequired (m ++ " " ++ u) m u .medium
          ∈ (handleNetworkCall mode d m u s t).1) ∧
      (assessRisk m u = .medium → mode ≠ .EXECUTE →
        (handleNetworkCall mode d m u s t).2 = none ∧
        ∀ e ∈ (handleNetworkCall mode d m u s t).1, e.isApproval = false) ∧
      (assessRisk m u = .low →
        (handleNetworkCall mode d m u s t).2 = none ∧
        ∀ e ∈ (handleNetworkCall mode d m u s t).1, e.isApproval = false) ∧
      (assessRisk "POST" "https://x.com/api/checkout" = .high ∧
        (handleNetworkCall .OBSERVE_ONLY d "POST" "https://x.com/api/checkout" s t).2
          = some d) ∧
      (assessRisk "PATCH" "https://x.com/api/profile" = .medium ∧
        (handleNetworkCall .OBSERVE_ONLY d "PATCH" "https://x.com/api/profile" s t).2
          = none) := by
  intro mode d m u s t
  refine ⟨?_, ?_, ?_, ?_, ?_, ?_, ?_⟩
  · rcases h : assessRisk m u <;> rcases mode <;>
      simp [handleNetworkCall, h]
  · intro h
    simp [handleNetworkCall, h]
  · intro h hm
    subst hm
    simp [handleNetworkCall, h]
  · intro h hm
    rcases mode <;> simp_all [handleNetworkCall, h, AgentEvent.isApproval]
  · intro h
    rcases mode <;> simp [handleNetworkCall, h, AgentEvent.isApproval]
  · have h : assessRisk "POST" "https://x.com/api/checkout" = RiskLevel.high := by
      decide
    exact ⟨h, by simp [handleNetworkCall, h]⟩
  · have h : assessRisk "PATCH" "https://x.com/api/profile" = RiskLevel.medium := by
      decide
    exact ⟨h, by simp [handleNetworkCall, h]⟩

/-- Witness for C1: the high-risk scenario of the spec, evaluated at
concrete inputs through the theorem. -/
theorem handleNetworkCall_gating_witness :
    assessRisk "POST" "https://x.com/api/checkout" = .high ∧
    (handleNetworkCall .OBSERVE_ONLY .yes "POST" "https://x.com/api/checkout" 200 0).2
      = some .yes ∧
    AgentEvent.approvalRequired ("POST" ++ " " ++ "https://x.com/api/checkout")
        "POST" "https://x.com/api/checkout" .high
      ∈ (handleNetworkCall .OBSERVE_ONLY .yes "POST" "https://x.com/api/checkout" 200 0).1 :=
  ⟨by decide,
   ((handleNetworkCall_gating .OBSERVE_ONLY .yes "POST" "https://x.com/api/checkout"
      200 0).2.1 (by decide)).1,
   ((handleNetworkCall_gating .OBSERVE_ONLY .yes "POST" "https://x.com/api/checkout"
      200 0).2.1 (by decide)).2⟩

/-- C6: resolveApproval with no pending request is a no-op; with a pending
request it resolves exactly that one waiting promise with the supplied
decision and clears the slot, so an immediately repeated resolveApproval is
again a no-op. -/
theorem resolveApproval_rendezvous :
    (∀ (s : ApprovalSlot) (d : ApprovalDecision), s.pending = none →
      resolveApprovalStep s d = s) ∧
    (∀ (s : ApprovalSlot) (p : Nat) (d : ApprovalDecision), s.pending = some p →
      (resolveApprovalStep s d).pending = none ∧
      (resolveApprovalStep s d).resolved = s.resolved ++ [(p, d)]) ∧
    (∀ (s : ApprovalSlot) (p : Nat) (d d2 : ApprovalDecision), s.pending = some p →
      resolveApprovalStep (resolveApprovalStep s d) d2 = resolveApprovalStep s d) := by
  refine ⟨?_, ?_, ?_⟩
  · intro s d h
    simp [resolveApprovalStep, h]
  · intro s p d h
    simp [resolveApprovalStep, h]
  · intro s p d d2 h
    simp [resolveApprovalStep, h]

/-- Witness for C6 at a concrete slot: resolving an empty slot changes
nothing, and resolving an occupied slot delivers the decision once. -/
theorem resolveApproval_rendezvous_witness :
    ((ApprovalSlot.mk none []).pending = none ∧
      resolveApprovalStep ⟨none, []⟩ .yes = ⟨none, []⟩) ∧
    ((ApprovalSlot.mk (some 7) []).pending = some 7 ∧
      (resolveApprovalStep ⟨some 7, []⟩ .doc).pending = none ∧
      (resolveApprovalStep ⟨some 7, []⟩ .doc).resolved = [] ++ [(7, .doc)]) :=
  ⟨⟨rfl, resolveApproval_rendezvous.1 ⟨none, []⟩ .yes rfl⟩,
   ⟨rfl, (resolveApproval_rendezvous.2.1 ⟨some 7, []⟩ 7 .doc rfl).1,
    (resolveApproval_rendezvous.2.1 ⟨some 7, []⟩ 7 .doc rfl).2⟩⟩

/-- Helper for C7: once promise p1 is neither parked in the slot nor in the
resolved list, no operation sequence that never requests p1 again can ever
resolve it. -/
theorem runOps_never_resolves (p1 : Nat) :
    ∀ (ops : List AgentOp) (s : ApprovalSlot), s.pending ≠ some p1 →
      (∀ d, (p1, d) ∉ s.resolved) → avoidsRequest p1 ops →
      (runOps s ops).pending ≠ some p1 ∧
      ∀ d, (p1, d) ∉ (runOps s ops).resolved := by
  intro ops
  induction ops with
  | nil =>
    intro s h1 h2 _
    exact ⟨h1, h2⟩
  | cons op t ih =>
    intro s h1 h2 havoid
    have havoid' : avoidsRequest p1 t := by
      intro q hq
      exact havoid q (List.mem_cons_of_mem _ hq)
    have hstep : (stepOp s op).pending ≠ some p1 ∧
        ∀ d, (p1, d) ∉ (stepOp s op).resolved := by
      cases op with
      | request q =>
        refine ⟨?_, h2⟩
        have hq : q ≠ p1 := havoid q (List.mem_cons_self _ _)
        simpa [stepOp, requestApprovalStep] using hq
      | resolveOp d =>
        cases hp : s.pending with
        | none =>
          constructor
          · simp [stepOp, resolveApprovalStep, hp]
          · simpa [stepOp, resolveApprovalStep, hp] using h2
        | some p =>
          have hpne : p ≠ p1 := fun h => h1 (by rw [hp, h])
          constructor
          · simp [stepOp, resolveApprovalStep, hp]
          · intro d2
            simp only [stepOp, resolveApprovalStep, hp, List.mem_append,
              List.mem_singleton]
            rintro (hin | hin)
            · exact h2 d2 hin
            · exact hpne (congrArg Prod.fst hin).symm
    simpa [runOps, List.foldl_cons] using ih (stepOp s op) hstep.1 hstep.2 havoid'

/-- C7: the rendezvous is a single slot — a second requestApproval issued
before the first resolves overwrites the slot with the new promise, and the
superseded promise p1 is never resolved by any later operation sequence
(that requests only fresh promises), whatever decisions are supplied. -/
theorem requestApproval_supersede :
    ∀ (s : ApprovalSlot) (p1 p2 : Nat) (ops : List AgentOp),
      p1 ≠ p2 → (∀ d, (p1, d) ∉ s.resolved) → avoidsRequest p1 ops →
      (requestApprovalStep (requestApprovalStep s p1) p2).pending = some p2 ∧
      ∀ d, (p1, d) ∉
        (runOps (requestApprovalStep (requestApprovalStep s p1) p2) ops).resolved := by
  intro s p1 p2 ops hne hres havoid
  have hpend : (requestApprovalStep (requestApprovalStep s p1) p2).pending
      ≠ some p1 := by
    simp [requestApprovalStep]
    exact fun h => hne h.symm
  have hres' : ∀ d, (p1, d) ∉
      (requestApprovalStep (requestApprovalStep s p1) p2).resolved := by
    simpa [requestApprovalStep] using hres
  exact ⟨by simp [requestApprovalStep],
    (runOps_never_resolves p1 ops _ hpend hres' havoid).2⟩

/-- Witness for C7: promise 0 is superseded by promise 1; a later resolve
delivers yes to promise 1 only, and promise 0 stays unresolved forever. -/
theorem requestApproval_supersede_witness :
    (0 : Nat) ≠ 1 ∧
    (∀ d, ((0 : Nat), d) ∉ (ApprovalSlot.mk none []).resolved) ∧
    avoidsRequest 0 [AgentOp.resolveOp .yes] ∧
    (requestApprovalStep (requestApprovalStep ⟨none, []⟩ 0) 1).pending = some 1 ∧
    ∀ d, ((0 : Nat), d) ∉
      (runOps (requestApprovalStep (requestApprovalStep ⟨none, []⟩ 0) 1)
        [AgentOp.resolveOp .yes]).resolved := by
  have havoid : avoidsRequest 0 [AgentOp.resolveOp .yes] := by
    intro q hq
    simp [avoidsRequest] at hq
  have hres : ∀ d, ((0 : Nat), d) ∉ (ApprovalSlot.mk none []).resolved := by
    intro d
    simp
  exact ⟨by decide, hres, havoid,
    (requestApproval_supersede ⟨none, []⟩ 0 1 [AgentOp.resolveOp .yes]
      (by decide) hres havoid).1,
    (requestApproval_supersede ⟨none, []⟩ 0 1 [AgentOp.resolveOp .yes]
      (by decide) hres havoid).2⟩

/-- Helper for C8: no bus operation ever disturbs the array object the
in-progress forEach iterates — pushes can only append to it (while the
alias holds) and offEvent replaces the field with a fresh array instead. -/
theorem applyBusOp_iter_stable (s : BusState) (op : BusOp) :
    s.iterArr <+: (applyBusOp s op).iterArr := by
  cases op with
  | add l =>
    by_cases h : s.aliased = true
    · simp [applyBusOp, h]
    · simp [applyBusOp, h]
  | remove l =>
    simp [applyBusOp]

/-- Helper for C8: a whole listener body preserves the iterated array as a
prefix. -/
theorem foldl_applyBusOp_iter_stable :
    ∀ (ops : List BusOp) (s : BusState),
      s.iterArr <+: (ops.foldl applyBusOp s).iterArr := by
  intro ops
  induction ops with
  | nil => intro s; exact List.prefix_refl _
  | cons op t ih =>
    intro s
    exact (applyBusOp_iter_stable s op).trans (ih (applyBusOp s op))

/-- Helper for C8: the dispatch loop invokes precisely the remaining
snapshot elements, in order, whatever the listeners do to the bus. -/
theorem emitLoop_invoked (behavior : Nat → List BusOp) (listeners : List Nat) :
    ∀ (n i : Nat) (inv : List Nat) (s : BusState),
      listeners <+: s.iterArr → i + n = listeners.length →
      (emitLoop behavior (List.range' i n) (inv, s)).1
        = inv ++ listeners.drop i := by
  intro n
  induction n with
  | zero =>
    intro i inv s _ hlen
    rw [List.drop_eq_nil_of_le (by omega)]
    simp [emitLoop]
  | succ k ih =>
    intro i inv s hpre hlen
    have hi : i < listeners.length := by omega
    have hi' : i < s.iterArr.length :=
      lt_of_lt_of_le hi hpre.length_le
    obtain ⟨ext, hext⟩ := hpre
    have hget : s.iterArr.get? i = some (listeners.get ⟨i, hi⟩) := by
      rw [← hext, List.get?_append hi, List.get?_eq_get hi]
    rw [List.range'_succ]
    simp only [emitLoop, hget]
    rw [ih (i + 1) (inv ++ [listeners.get ⟨i, hi⟩])
      ((behavior (listeners.get ⟨i, hi⟩)).foldl applyBusOp s)
      (List.IsPrefix.trans ⟨ext, hext⟩ (foldl_applyBusOp_iter_stable _ s))
      (by omega)]
    rw [List.drop_eq_getElem_cons hi]
    simp

/-- C8: emit synchronously invokes, in registration order, exactly the
listeners registered at the moment emit is called, whatever subscriptions
or unsubscriptions its listeners perform mid-dispatch; mutations take
effect only for subsequent emits.  The concrete tail shows a listener that
removes (resp. adds) another during dispatch: the current dispatch still
invokes the original snapshot, and only the next emit sees the change. -/
theorem emit_snapshot_dispatch :
    (∀ (behavior : Nat → List BusOp) (listeners : List Nat),
      (emit behavior listeners).1 = listeners) ∧
    (emit (fun l => if l = 0 then [.remove 1] else []) [0, 1] = ([0, 1], [0])) ∧
    (emit (fun l => if l = 0 then [.remove 1] else []) [0] = ([0], [0])) ∧
    (emit (fun l => if l = 0 then [.add 5] else []) [0, 1] = ([0, 1], [0, 1, 5])) ∧
    (emit (fun l => if l = 0 then [.add 5] else []) [0, 1, 5]
      = ([0, 1, 5], [0, 1, 5, 5])) := by
  refine ⟨?_, by decide, by decide, by decide, by decide⟩
  intro behavior listeners
  have h := emitLoop_invoked behavior listeners listeners.length 0 []
    ⟨listeners, listeners, true⟩ (List.prefix_refl _) (by omega)
  simpa [emit, List.range_eq_range'] using h

/-- C3: a CapturedCall is appended by the response handler iff a capture
session is active, a matching request record exists, and the inclusion
filter passes; the filter passes iff the resource type is xhr or fetch and,
unless third-party inclusion is enabled (or no base domain is configured),
the call's host is same-site with the configured base domain; startCapture
fixes that base domain to the registrable base domain (last two labels) of
the configured base URL. -/
theorem captured_call_iff :
    (∀ (st : RecState) (reqId : Nat) (fm respUrl : String) (status : Nat)
        (rh : List (String × String)) (br : Except Unit String) (now : Nat),
      (∃ st', onResponse st reqId fm respUrl status rh br now = .ok st' ∧
        ∃ c, st'.capturedCalls = st.capturedCalls ++ [c]) ↔
      (st.captureActive = true ∧
        ∃ info, lookupReq st.requests reqId = some info ∧
          shouldCapture st info = some true)) ∧
    (∀ (st : RecState) (info : RequestInfo) (host : List Char),
      parseUrlHost info.url = some host →
      (shouldCapture st info = some true ↔
        ((info.resourceType = "xhr" ∨ info.resourceType = "fetch") ∧
          (st.includeThirdParty = true ∨ st.captureBaseDomain = none ∨
            ∃ b, st.captureBaseDomain = some b ∧ isSameSite host b = true)))) ∧
    (∀ (st st' : RecState) (baseUrl : String),
      startCapture st baseUrl false = .ok st' →
      st'.captureActive = true ∧ st'.includeThirdParty = false ∧
        st'.captureBaseDomain = getBaseDomain baseUrl ∧ st'.capturedCalls = []) ∧
    (getBaseDomain "https://app.sub.example.com/x" = some "example.com".data) := by
  refine ⟨?_, ?_, ?_, by decide⟩
  · intro st reqId fm respUrl status rh br now
    cases hlook : lookupReq st.requests reqId with
    | none =>
      simp only [onResponse, hlook]
      constructor
      · rintro ⟨st', hok, c, hc⟩
        exfalso
        cases hok
        have := congrArg List.length hc
        simp at this
      · rintro ⟨_, info, hinfo, _⟩
        exact absurd hinfo (by simp)
    | some info =>
      cases hact : st.captureActive with
      | false =>
        simp only [onResponse, hlook, hact]
        constructor
        · rintro ⟨st', hok, c, hc⟩
          exfalso
          simp at hok
          cases hok
          have := congrArg List.length hc
          simp at this
        · rintro ⟨hco, _⟩
          exact absurd hco (by simp)
      | true =>
        cases hsc : shouldCapture st info with
        | none =>
          simp only [onResponse, hlook, hact]
          rw [hsc]
          constructor
          · rintro ⟨st', hok, _⟩
            exact absurd hok (by simp)
          · rintro ⟨_, info', hinfo', hsc'⟩
            injection hinfo' with h
            subst h
            rw [hsc] at hsc'
            exact absurd hsc' (by simp)
        | some b =>
          cases b with
          | false =>
            simp only [onResponse, hlook, hact]
            rw [hsc]
            constructor
            · rintro ⟨st', hok, c, hc⟩
              exfalso
              simp at hok
              cases hok
              have := congrArg List.length hc
              simp at this
            · rintro ⟨_, info', hinfo', hsc'⟩
              injection hinfo' with h
              subst h
              rw [hsc] at hsc'
              exact absurd hsc' (by simp)
          | true =>
            simp only [onResponse, hlook, hact]
            rw [hsc]
            simp only [Bool.not_true]
            constructor
            · intro _
              exact ⟨trivial, info, rfl, hsc⟩
            · intro _
              refine ⟨_, rfl, _, rfl⟩
  · intro st info host hparse
    by_cases htype : info.resourceType ≠ "xhr" ∧ info.resourceType ≠ "fetch"
    · simp only [shouldCapture, if_pos htype]
      constructor
      · intro h
        exact absurd h (by simp)
      · rintro ⟨htype', _⟩
        rcases htype' with h | h
        · exact absurd h htype.1
        · exact absurd h htype.2
    · have htype' : info.resourceType = "xhr" ∨ info.resourceType = "fetch" := by
        by_cases h1 : info.resourceType = "xhr"
        · exact Or.inl h1
        · by_cases h2 : info.resourceType = "fetch"
          · exact Or.inr h2
          · exact absurd ⟨h1, h2⟩ htype
      simp only [shouldCapture, if_neg htype]
      cases htp : st.includeThirdParty with
      | true =>
        simp only [htp]
        constructor
        · intro _
          exact ⟨htype', Or.inl trivial⟩
        · intro _
          trivial
      | false =>
        cases hbd : st.captureBaseDomain with
        | none =>
          simp only [htp]
          constructor
          · intro _
            exact ⟨htype', Or.inr (Or.inl trivial)⟩
          · intro _
            trivial
        | some base =>
          simp only [htp, hparse]
          constructor
          · intro h
            have hs : isSameSite host base = true := by
              by_contra hq
              rw [Bool.not_eq_true] at hq
              rw [hq] at h
              exact absurd h (by simp)
            exact ⟨htype', Or.inr (Or.inr ⟨base, rfl, hs⟩)⟩
          · rintro ⟨_, htp' | hbd' | ⟨b, hb, hs⟩⟩
            · exact absurd htp' (by simp)
            · exact absurd hbd' (by simp)
            · obtain rfl : base = b := by injection hb
              rw [hs]
  · intro st st' baseUrl hstart
    cases hbd : getBaseDomain baseUrl with
    | none =>
      rw [startCapture, hbd] at hstart
      exact absurd hstart (by simp)
    | some b =>
      rw [startCapture, hbd] at hstart
      cases hstart
      exact ⟨rfl, rfl, rfl, rfl⟩

/-- Concrete xhr request on a subdomain of the captured site, used by the
C3 witness. -/
def infoW : RequestInfo :=
  { method := "GET"
    url := "https://api.x.com/items"
    headers := []
    postData := none
    resourceType := "xhr"
    timestamp := 0 }

/-- Concrete recorder state with an active capture session for x.com. -/
def stW : RecState :=
  { requests := [(0, infoW)]
    captureActive := true
    captureBaseDomain := some "x.com".data
    includeThirdParty := false
    capturedCalls := [] }

/-- Witness for C3: a same-site xhr response in an active session passes
the filter and is appended. -/
theorem captured_call_iff_witness :
    parseUrlHost infoW.url = some "api.x.com".data ∧
    shouldCapture stW infoW = some true ∧
    ∃ st', onResponse stW 0 "GET" "https://api.x.com/items" 200 [] (.ok "ok") 5
        = .ok st' ∧
      ∃ c, st'.capturedCalls = stW.capturedCalls ++ [c] := by
  have hsc : shouldCapture stW infoW = some true :=
    (captured_call_iff.2.1 stW infoW "api.x.com".data (by decide)).mpr
      ⟨Or.inl rfl, Or.inr (Or.inr ⟨"x.com".data, rfl, by decide⟩)⟩
  exact ⟨by decide, hsc,
    (captured_call_iff.1 stW 0 "GET" "https://api.x.com/items" 200 [] (.ok "ok")
      5).mpr ⟨rfl, infoW, by decide, hsc⟩⟩

/-- Helper for C4: closed form of folding the session listener over a call
list, relative to the keys already seen and the calls already retained. -/
theorem foldl_onCapturedCall_eq :
    ∀ (cs : List CapturedCall) (seen : List String) (acc : List CapturedCall),
      cs.foldl onCapturedCall (seen, acc)
        = (seen ++ (firstOccFilter seen cs).map getApiKey,
           acc ++ firstOccFilter seen cs) := by
  intro cs
  induction cs with
  | nil =>
    intro seen acc
    simp [firstOccFilter]
  | cons c t ih =>
    intro seen acc
    by_cases h : getApiKey c ∈ seen
    · rw [List.foldl_cons]
      simp only [onCapturedCall, if_pos h]
      rw [ih seen acc]
      simp [firstOccFilter, h]
    · rw [List.foldl_cons]
      simp only [onCapturedCall, if_neg h]
      rw [ih (seen ++ [getApiKey c]) (acc ++ [c])]
      simp [firstOccFilter, h, List.append_assoc]

/-- Helper for C4: the keys of the first-occurrence filter avoid the seen
set and contain no duplicates. -/
theorem firstOccFilter_keys_fresh :
    ∀ (cs : List CapturedCall) (seen : List String),
      (∀ k ∈ (firstOccFilter seen cs).map getApiKey, k ∉ seen) ∧
      ((firstOccFilter seen cs).map getApiKey).Nodup := by
  intro cs
  induction cs with
  | nil =>
    intro seen
    simp [firstOccFilter]
  | cons c t ih =>
    intro seen
    by_cases h : getApiKey c ∈ seen
    · simpa [firstOccFilter, h] using ih seen
    · have iht := ih (seen ++ [getApiKey c])
      simp only [firstOccFilter, if_neg h, List.map_cons, List.nodup_cons]
      refine ⟨?_, ?_, iht.2⟩
      · intro k hk
        rcases List.mem_cons.mp hk with h1 | h1
        · exact h1 ▸ h
        · intro hin
          exact iht.1 k h1 (by simp [hin])
      · intro hin
        exact iht.1 _ hin (by simp)

/-- Helper for C4: a key appears among the retained first occurrences iff
it is unseen and appears among the processed calls' keys. -/
theorem firstOccFilter_key_mem :
    ∀ (cs : List CapturedCall) (seen : List String) (k : String),
      (k ∈ (firstOccFilter seen cs).map getApiKey) ↔
        (k ∉ seen ∧ k ∈ cs.map getApiKey) := by
  intro cs
  induction cs with
  | nil =>
    intro seen k
    simp [firstOccFilter]
  | cons c t ih =>
    intro seen k
    by_cases h : getApiKey c ∈ seen
    · rw [firstOccFilter, if_pos h]
      rw [ih seen k]
      simp only [List.map_cons, List.mem_cons]
      constructor
      · rintro ⟨hk, hmem⟩
        exact ⟨hk, Or.inr hmem⟩
      · rintro ⟨hk, hkc | hmem⟩
        · exact absurd (hkc ▸ h) hk
        · exact ⟨hk, hmem⟩
    · rw [firstOccFilter, if_neg h]
      simp only [List.map_cons, List.mem_cons]
      rw [ih (seen ++ [getApiKey c]) k]
      constructor
      · rintro (hkc | ⟨hk, hmem⟩)
        · exact ⟨hkc ▸ h, Or.inl hkc⟩
        · refine ⟨fun hin => hk (by simp [hin]), Or.inr hmem⟩
      · rintro ⟨hk, hkc | hmem⟩
        · exact Or.inl hkc
        · by_cases hkc : k = getApiKey c
          · exact Or.inl hkc
          · exact Or.inr ⟨by simp [hk, hkc], hmem⟩

/-- Two spec-scenario calls sharing the dedup key `GET x.com/api/items`. -/
def itemsCall (n : Nat) : CapturedCall :=
  { method := "GET"
    url := "https://x.com/api/items?x=" ++ toString n
    status := 200
    requestHeaders := []
    responseHeaders := []
    requestBody := none
    responseBody := none
    timestamp := n }

/-- Recorder state whose in-session list already holds a call with the same
dedup key as the next incoming call. -/
def stDup : RecState :=
  { requests := [(0, infoW)]
    captureActive := true
    captureBaseDomain := some "x.com".data
    includeThirdParty := false
    capturedCalls := [itemsCall 1] }

/-- C4: at every point in a capture session the documentation set retains
exactly one call per distinct method+hostname+pathname key — the first
occurrence of each key, with later duplicates excluded — so the number of
distinct keys equals the number of retained calls; the recorder's own
per-event list keeps every passing call, duplicates included. -/
theorem session_dedup_invariant :
    (∀ cs : List CapturedCall,
      (runSession cs).1 = (firstOccFilter [] cs).map getApiKey ∧
      (runSession cs).2 = firstOccFilter [] cs ∧
      (runSession cs).1.Nodup ∧
      (runSession cs).1.length = (runSession cs).2.length ∧
      (∀ k, k ∈ (runSession cs).1 ↔ k ∈ cs.map getApiKey)) ∧
    (getApiKey (itemsCall 1) = "GET x.com/api/items" ∧
      getApiKey (itemsCall 2) = "GET x.com/api/items" ∧
      itemsCall 1 ≠ itemsCall 2 ∧
      runSession [itemsCall 1, itemsCall 2]
        = (["GET x.com/api/items"], [itemsCall 1])) ∧
    (∃ st', onResponse stDup 0 "GET" "https://x.com/api/items?x=2" 200 []
        (.error ()) 5 = .ok st' ∧
      st'.capturedCalls.length = 2 ∧
      getApiKey (st'.capturedCalls.getD 0 (itemsCall 0))
        = getApiKey (st'.capturedCalls.getD 1 (itemsCall 0))) := by
  refine ⟨?_, by decide, ?_⟩
  · intro cs
    have h := foldl_onCapturedCall_eq cs [] []
    have h1 : (runSession cs).1 = (firstOccFilter [] cs).map getApiKey := by
      rw [runSession, h]
      simp
    have h2 : (runSession cs).2 = firstOccFilter [] cs := by
      rw [runSession, h]
      simp
    refine ⟨h1, h2, ?_, ?_, ?_⟩
    · rw [h1]
      exact (firstOccFilter_keys_fresh cs []).2
    · rw [h1, h2, List.length_map]
    · intro k
      rw [h1, firstOccFilter_key_mem cs [] k]
      simp
  · exact ⟨_, rfl, by decide, by decide⟩

/-- Witness for C4 at the spec scenario: two same-key calls collapse to one
retained call and one distinct key. -/
theorem session_dedup_invariant_witness :
    (runSession [itemsCall 1, itemsCall 2]).1.length
      = (runSession [itemsCall 1, itemsCall 2]).2.length ∧
    ("GET x.com/api/items" ∈ (runSession [itemsCall 1, itemsCall 2]).1 ↔
      "GET x.com/api/items"
        ∈ ([itemsCall 1, itemsCall 2].map getApiKey)) :=
  ⟨(session_dedup_invariant.1 [itemsCall 1, itemsCall 2]).2.2.2.1,
   (session_dedup_invariant.1 [itemsCall 1, itemsCall 2]).2.2.2.2
     "GET x.com/api/items"⟩

/-- Helper for C5: the visit loop keeps the visited-page counter within the
budget and never records an unsafe label, from any state already satisfying
both. -/
theorem exploreLoop_inv (cliUrl : String) (skip : List (List Char))
    (oracles : ExploreOracles) :
    ∀ (cands : List Candidate) (st : ExploreState),
      st.explored ≤ 8 → (∀ l ∈ st.visitedPages, isUnsafeLabel l = false) →
      (exploreLoop cliUrl skip oracles st cands).explored ≤ 8 ∧
      (∀ l ∈ (exploreLoop cliUrl skip oracles st cands).visitedPages,
        isUnsafeLabel l = false) := by
  intro cands
  induction cands with
  | nil =>
    intro st h1 h2
    exact ⟨h1, h2⟩
  | cons c rest ih =>
    intro st h1 h2
    simp only [exploreLoop]
    split
    · exact ⟨h1, h2⟩
    next hb =>
      split
      · exact ih st h1 h2
      next hu =>
        have hu' : isUnsafeLabel c.label = false := by
          revert hu
          cases isUnsafeLabel c.label <;> simp
        split
        · exact ih st h1 h2
        split
        · exact ih st h1 h2
        split
        · exact ih st h1 h2
        split
        next hn =>
          have hpages : ∀ l ∈ st.visitedPages ++ [c.label],
              isUnsafeLabel l = false := by
            intro l hl
            rcases List.mem_append.mp hl with hl | hl
            · exact h2 l hl
            · rw [List.mem_singleton.mp hl]
              exact hu'
          split
          · exact ih _ (by simp; omega) (by simpa using hpages)
          · exact ih _ (by simp; omega) (by simpa using hpages)
        · exact ih _ (by simpa using h1) (by simpa using h2)

/-- Demonstration candidate list for C5: 20 candidates, an unsafe
"Checkout" first. -/
def candsDemo : List Candidate :=
  Candidate.mk "Checkout" (some "https://base.com/checkout") "link" ::
    (List.range 19).map (fun i =>
      ⟨"p" ++ toString i, some ("https://base.com/p" ++ toString i), "link"⟩)

/-- Oracles that approve everything and always navigate successfully. -/
def allYesOracles : ExploreOracles :=
  ⟨fun _ => .yes, fun _ => true⟩

/-- C5: in one exploration run at most 8 candidate pages are visited,
however many candidates exist and however the plan orders or ranks them,
and a candidate whose label matches the unsafe pattern is never navigated
to.  The closed tail runs 20 candidates led by "Checkout": exactly 8 pages
are visited and "Checkout" is not among them. -/
theorem exploration_budget_and_safety :
    (∀ (cliUrl : String) (skip : List (List Char)) (oracles : ExploreOracles)
        (cands : List Candidate),
      (exploreLoop cliUrl skip oracles exploreInit cands).explored ≤ 8) ∧
    (∀ (cliUrl : String) (skip : List (List Char)) (oracles : ExploreOracles)
        (cands : List Candidate) (l : String),
      l ∈ (exploreLoop cliUrl skip oracles exploreInit cands).visitedPages →
      isUnsafeLabel l = false) ∧
    (candsDemo.length = 20 ∧ isUnsafeLabel "Checkout" = true ∧
      (exploreLoop "https://base.com" [] allYesOracles exploreInit
        candsDemo).explored = 8 ∧
      "Checkout" ∉ (exploreLoop "https://base.com" [] allYesOracles exploreInit
        candsDemo).visitedPages) := by
  refine ⟨?_, ?_, by decide, by decide, by decide, by decide⟩
  · intro cliUrl skip oracles cands
    exact (exploreLoop_inv cliUrl skip oracles cands exploreInit
      (by decide) (by simp [exploreInit])).1
  · intro cliUrl skip oracles cands l hl
    exact (exploreLoop_inv cliUrl skip oracles cands exploreInit
      (by decide) (by simp [exploreInit])).2 l hl

/-- Witness for C5: the unsafe-pattern conclusion applied to the concrete
20-candidate run. -/
theorem exploration_budget_and_safety_witness :
    (exploreLoop "https://base.com" [] allYesOracles exploreInit
      candsDemo).explored ≤ 8 ∧
    ("p0" ∈ (exploreLoop "https://base.com" [] allYesOracles exploreInit
        candsDemo).visitedPages ∧ isUnsafeLabel "p0" = false) :=
  ⟨exploration_budget_and_safety.1 "https://base.com" [] allYesOracles candsDemo,
   by decide,
   exploration_budget_and_safety.2.1 "https://base.com" [] allYesOracles
     candsDemo "p0" (by decide)⟩

/-- Ten safe same-site candidates p0..p9 for the C10 run. -/
def cands10 : List Candidate :=
  (List.range 10).map (fun i =>
    ⟨"p" ++ toString i, some ("https://base.com/p" ++ toString i), "link"⟩)

/-- Oracles whose navigation fails exactly on p0 and p1. -/
def failTwoOracles : ExploreOracles :=
  ⟨fun _ => .yes, fun c => !(c.label = "p0" || c.label = "p1")⟩

/-- C10: a candidate whose navigation throws consumes no exploration
budget — the counter increments only after a successful navigation and a
failed href is never added to the visited set — so a run can attempt more
than 8 navigations yet visit at most 8 pages.  The closed tail runs ten
candidates with two navigation failures: ten attempts, eight visits, and
the failed href stays out of the visited set. -/
theorem failed_navigation_consumes_no_budget :
    (∀ (cliUrl : String) (skip : List (List Char)) (oracles : ExploreOracles)
        (st : ExploreState) (c : Candidate) (href : String)
        (rest : List Candidate),
      st.explored < 8 →
      isUnsafeLabel c.label = false →
      skip.contains (c.label.data.map Char.toLower) = false →
      c.href = some href →
      st.visited.contains href = false →
      isRiskyNavigation cliUrl c = false →
      oracles.navOk c = false →
      exploreLoop cliUrl skip oracles st (c :: rest)
        = exploreLoop cliUrl skip oracles
            { st with navAttempts := st.navAttempts + 1 } rest) ∧
    (cands10.length = 10 ∧
      (exploreLoop "https://base.com" [] failTwoOracles exploreInit
        cands10).navAttempts = 10 ∧
      (exploreLoop "https://base.com" [] failTwoOracles exploreInit
        cands10).explored = 8 ∧
      "https://base.com/p0" ∉ (exploreLoop "https://base.com" [] failTwoOracles
        exploreInit cands10).visited) := by
  refine ⟨?_, by decide, by decide, by decide, by decide⟩
  intro cliUrl skip oracles st c href rest h1 h2 h3 h4 h5 h6 h7
  have h3' : List.map Char.toLower c.label.data ∉ skip := by simpa using h3
  have h5' : href ∉ st.visited := by simpa using h5
  simp only [exploreLoop, h4]
  rw [if_neg (show ¬ st.explored ≥ 8 by omega)]
  simp [h2, h3', h5', h6, h7]

/-- Witness for C10: the failed-navigation step theorem applied to the
first candidate of the concrete run. -/
theorem failed_navigation_consumes_no_budget_witness :
    exploreInit.explored < 8 ∧
    isUnsafeLabel "p0" = false ∧
    ([] : List (List Char)).contains ("p0".data.map Char.toLower) = false ∧
    (Candidate.mk "p0" (some "https://base.com/p0") "link").href
      = some "https://base.com/p0" ∧
    exploreInit.visited.contains "https://base.com/p0" = false ∧
    isRiskyNavigation "https://base.com"
      ⟨"p0", some "https://base.com/p0", "link"⟩ = false ∧
    failTwoOracles.navOk ⟨"p0", some "https://base.com/p0", "link"⟩ = false ∧
    exploreLoop "https://base.com" [] failTwoOracles exploreInit
        [⟨"p0", some "https://base.com/p0", "link"⟩]
      = exploreLoop "https://base.com" [] failTwoOracles
          { exploreInit with navAttempts := exploreInit.navAttempts + 1 } [] :=
  ⟨by decide, by decide, by decide, by decide, by decide, by decide, by decide,
   failed_navigation_consumes_no_budget.1 "https://base.com" [] failTwoOracles
     exploreInit ⟨"p0", some "https://base.com/p0", "link"⟩
     "https://base.com/p0" [] (by decide) (by decide) (by decide) (by decide)
     (by decide) (by decide) (by decide)⟩

/-- Concrete xhr request with a malformed URL, for the C9 analysis. -/
def badInfo : RequestInfo :=
  { method := "GET"
    url := "not-a-url"
    headers := []
    postData := none
    resourceType := "xhr"
    timestamp := 0 }

/-- Active capture state (third-party inclusion disabled) holding the
malformed-URL request. -/
def badState : RecState :=
  { requests := [(0, badInfo)]
    captureActive := true
    captureBaseDomain := some "x.com".data
    includeThirdParty := false
    capturedCalls := [] }

/-- Counterexample for C9: with capture active and third-party inclusion
disabled, the unguarded URL parse inside shouldCapture raises on a
malformed request URL, and the exception propagates out of the response
handler instead of a field being omitted. -/
theorem capture_malformed_url_raises :
    shouldCapture badState badInfo = none ∧
    onResponse badState 0 "GET" "not-a-url" 200 [] (.ok "body") 0
      = .error () := by
  exact ⟨by decide, rfl⟩

/-- C9 (amended): unreadable response bodies and non-JSON, non-plain-text
content types never raise — safeResponseBody yields undefined and the call
is still captured with its body omitted — and a malformed URL in the
session-key computation falls back to the raw URL; only the same-site
check's URL parse is unguarded. -/
theorem capture_body_failure_degrades :
    (∀ rh, safeResponseBody rh (.error ()) = none) ∧
    (∀ (rh : List (String × String)) (body ct : String),
      headerLookup rh "content-type" = some ct →
      containsSeq ct.data "application/json".data = false →
      containsSeq ct.data "text/plain".data = false →
      safeResponseBody rh (.ok body) = none) ∧
    (∀ (rh : List (String × String)) (br : Except Unit String),
      headerLookup rh "content-type" = none → safeResponseBody rh br = none) ∧
    (∀ c : CapturedCall, parseUrlHostPath c.url = none →
      getApiKey c = c.method ++ " " ++ c.url) ∧
    (∀ (st : RecState) (reqId : Nat) (fm respUrl : String) (status now : Nat)
        (rh : List (String × String)) (info : RequestInfo),
      lookupReq st.requests reqId = some info →
      st.captureActive = true →
      shouldCapture st info = some true →
      ∃ st', onResponse st reqId fm respUrl status rh (.error ()) now = .ok st' ∧
        ∃ c, st'.capturedCalls = st.capturedCalls ++ [c] ∧
          c.responseBody = none) := by
  have hbody : ∀ rh, safeResponseBody rh (.error ()) = none := by
    intro rh
    simp only [safeResponseBody]
    split
    · rfl
    · rfl
  refine ⟨hbody, ?_, ?_, ?_, ?_⟩
  · intro rh body ct hct h1 h2
    simp only [safeResponseBody, hct, Option.getD_some]
    rw [if_pos (by simp [h1, h2])]
  · intro rh br hct
    simp only [safeResponseBody, hct, Option.getD_none]
    rw [if_pos (by decide)]
  · intro c hparse
    simp only [getApiKey, hparse]
  · intro st reqId fm respUrl status now rh info hlook hact hsc
    simp only [onResponse, hlook, hact, Bool.not_true]
    rw [if_neg (by simp)]
    rw [hsc]
    exact ⟨_, rfl, _, rfl, hbody rh⟩

/-- Witness for C9's amended theorem: an unreadable body on a passing
capture is recorded with the response body omitted. -/
theorem capture_body_failure_degrades_witness :
    (safeResponseBody [] (.error ()) = none) ∧
    (lookupReq stW.requests 0 = some infoW ∧
      stW.captureActive = true ∧
      shouldCapture stW infoW = some true ∧
      ∃ st', onResponse stW 0 "GET" "https://api.x.com/items" 200 []
          (.error ()) 5 = .ok st' ∧
        ∃ c, st'.capturedCalls = stW.capturedCalls ++ [c] ∧
          c.responseBody = none) :=
  ⟨capture_body_failure_degrades.1 [],
   by decide, rfl, by decide,
   capture_body_failure_degrades.2.2.2.2 stW 0 "GET" "https://api.x.com/items"
     200 5 [] infoW (by decide) rfl (by decide)⟩

end WebDoc
